import Mathlib

/-! DouyuBulletSubtitle: frame codec and event dispatch of `dybarrage.go`.

A shallow embedding of the protocol engine of `src/dybarrage.go`:
`sendmsg`, `readresponse`, `respondtoserver` and `responsHandle`.

* A Go `[]byte` is a `List Nat` (every element stands for one byte).
* The side effects of the Go code (writes to the TCP connection, lines printed
  on stdout, inserts into the database, log lines, calls of `responsHandle`)
  are recorded in order in a trace of `Effect`s.
* A Go function ends in one of three ways, recorded as an `Exit`: it returns
  (with an `error` value or `nil`), it panics (index out of range on a `nil`
  regexp result), or the process is ended by `log.Fatal` (`checkErr`).
* What the code reads from its environment (the clock, the `dbOK` flag, the
  room id, the outcome of a TCP write and of a database insert) is a `World`.
-/

namespace Dybarrage

/-! ## Bytes -/

/-- Bytes of an ASCII string literal (one byte per character). -/
def ascii (s : String) : List Nat := s.toList.map Char.toNat

/-- The 4-byte buffer after `binary.LittleEndian.PutUint32(buf, v)`. -/
def putUint32 (v : Nat) : List Nat :=
  [v % 256, v / 256 % 256, v / 65536 % 256, v / 16777216 % 256]

/-- The Go conversion `uint32(x)` of a non-negative `int`. -/
def uint32 (x : Nat) : Nat := x % 2 ^ 32

/-- Value of a byte sequence read as a little-endian number (the meaning of
"little-endian encoding" used by the specification). -/
def leValue : List Nat → Nat
  | [] => 0
  | b :: bs => b + 256 * leValue bs

/-- The bytes `bs` are the 4-byte little-endian encoding of `v`. -/
def IsLE32 (bs : List Nat) (v : Nat) : Prop :=
  bs.length = 4 ∧ (∀ x ∈ bs, x < 256) ∧ leValue bs = v

/-! ## Effects and outcomes -/

/-- The Go error values that occur: `ErrDataTruncated`, `io.EOF`, and any
other error of the connection. -/
inductive GoError where
  | ErrDataTruncated
  | EOF
  | connError
  deriving DecidableEq, Repr

/-- The record `data.Barrage` handed to `db.MainDB.Insert`. -/
structure Barrage where
  Nickname : List Nat
  Chatmsg : List Nat
  Roomid : List Nat
  deriving DecidableEq, Repr

/-- One observable action of the program. -/
inductive Effect where
  /-- the call `responsHandle(seg)` made by the loop of `respondtoserver` -/
  | call (seg : List Nat)
  /-- the call `tc.Write(msgall)` -/
  | write (msgall : List Nat)
  /-- the bytes that `fmt.Printf` prints on stdout -/
  | print (line : List Nat)
  /-- the call `db.MainDB.Insert(&data.Barrage ...)` -/
  | insert (rec : Barrage)
  /-- the log line `affected: %d, error: %v` -/
  | logAffected (affected : Int) (failed : Bool)
  /-- the log line `Barrage insert failed, %s: %s` -/
  | logInsertFailed (nickname chatmsg : List Nat)
  deriving DecidableEq, Repr

/-- How a Go function call ends. -/
inductive Exit where
  /-- normal return, with the returned `error` (`none` is `nil`) -/
  | returned (err : Option GoError)
  /-- run-time panic (index out of range) -/
  | panicked
  /-- process ended by `log.Fatal` in `checkErr` -/
  | fatal
  deriving DecidableEq, Repr

/-- The trace of a call and the way it ended. -/
structure Run where
  trace : List Effect
  exit : Exit
  deriving DecidableEq, Repr

/-- What the code reads from its environment. -/
structure World where
  /-- the clock reading `time.Now().Unix()` during the call -/
  now : Int
  /-- the global `dbOK` -/
  dbOK : Bool
  /-- the global `*roomid` -/
  roomid : List Nat
  /-- whether `tc.Write` returns an error -/
  writeErr : Bool
  /-- first result of `db.MainDB.Insert` -/
  insertAffected : Int
  /-- whether `db.MainDB.Insert` returns an error -/
  insertErr : Bool
  deriving DecidableEq, Repr

/-! ## `sendmsg` -/

/-- The slice `msghead` that `sendmsg` builds for the body `b`. -/
def msghead (b : List Nat) : List Nat :=
  let msglen := b.length + 8 + 1
  let msgtype := 689
  let msglenbuf := putUint32 (uint32 msglen)
  let msgtypebuf := putUint32 (uint32 msgtype)
  (msglenbuf ++ msglenbuf) ++ msgtypebuf

/-- The slice `msgall` that `sendmsg` builds for the body `b`. -/
def msgall (b : List Nat) : List Nat :=
  (msghead b ++ b) ++ [0x00]

/-- The function `sendmsg(tc, b)`: one `tc.Write(msgall)`, then `checkErr(err)`. -/
def sendmsg (w : World) (b : List Nat) : Run :=
  ⟨[Effect.write (msgall b)], if w.writeErr then Exit.fatal else Exit.returned none⟩

/-! ## The regular expressions of `responsHandle`

All five patterns have the shape `literal (class+)` or `literal (class+?)/`.
`regexp` works on UTF-8 runes; the literals, `/` and the line feed are ASCII,
which never occur inside a multi-byte rune, and an invalid byte is a rune of
width one that `.` accepts, so matching byte by byte gives the same result.
-/

/-- A pattern `pre (cls+) post` (greedy) or `pre (cls+?) post` (lazy). -/
structure Pat where
  pre : List Nat
  cls : Nat → Bool
  lazy : Bool
  post : List Nat

/-- Remove the literal `lit` from the front of `s`, if it is there. -/
def dropLit : List Nat → List Nat → Option (List Nat)
  | [], s => some s
  | _ :: _, [] => none
  | a :: as, b :: bs => if a = b then dropLit as bs else none

/-- The group `(cls+?) post` anchored at the front of the input: the capture. The lazy
quantifier tries the continuation before taking one more character. -/
def lazyPlus (cls : Nat → Bool) (post : List Nat) : List Nat → Option (List Nat)
  | [] => none
  | c :: cs =>
    if cls c then
      match dropLit post cs with
      | some _ => some [c]
      | none => (lazyPlus cls post cs).map (fun r => c :: r)
    else none

/-- The group `(cls+) post` anchored at the front of the input: the capture. The greedy
quantifier takes one more character before trying the continuation. -/
def greedyPlus (cls : Nat → Bool) (post : List Nat) : List Nat → Option (List Nat)
  | [] => none
  | c :: cs =>
    if cls c then
      match greedyPlus cls post cs with
      | some r => some (c :: r)
      | none =>
        match dropLit post cs with
        | some _ => some [c]
        | none => none
    else none

/-- Match of the pattern starting exactly at the front of `s`: group 1. -/
def matchAt (p : Pat) (s : List Nat) : Option (List Nat) :=
  match dropLit p.pre s with
  | none => none
  | some rest => if p.lazy then lazyPlus p.cls p.post rest else greedyPlus p.cls p.post rest

/-- The call `re.FindSubmatch(s)`: the leftmost match; `none` is the `nil` result and
`some g` carries the submatch `[1]`, the only one the code reads. -/
def FindSubmatch (p : Pat) : List Nat → Option (List Nat)
  | [] => matchAt p []
  | c :: cs =>
    match matchAt p (c :: cs) with
    | some g => some g
    | none => FindSubmatch p cs

/-- The class `[a-z]`. -/
def isLower (c : Nat) : Bool := decide (97 ≤ c) && decide (c ≤ 122)

/-- The class `[0-9]`. -/
def isDigit (c : Nat) : Bool := decide (48 ≤ c) && decide (c ≤ 57)

/-- The class `.`: every character but the line feed. -/
def notNL (c : Nat) : Bool := decide (c ≠ 10)

/-- ASCII capital letters. -/
def isUpper (c : Nat) : Bool := decide (65 ≤ c) && decide (c ≤ 90)

/-- ASCII letters and digits. -/
def isAlnum (c : Nat) : Bool := isLower c || isUpper c || isDigit c

/-- The pattern `regexp.MustCompile("type@=([a-z]+)")`. -/
def retype : Pat := ⟨ascii "type@=", isLower, false, []⟩

/-- The pattern `regexp.MustCompile("nn@=(.+?)/")`. -/
def renickname : Pat := ⟨ascii "nn@=", notNL, true, ascii "/"⟩

/-- The pattern `regexp.MustCompile("txt@=(.+?)/")`. -/
def rechatmsg : Pat := ⟨ascii "txt@=", notNL, true, ascii "/"⟩

/-- The pattern `regexp.MustCompile("level@=([0-9]+?)/")`. -/
def relevel : Pat := ⟨ascii "level@=", isDigit, true, ascii "/"⟩

/-- The pattern `regexp.MustCompile("live_stat@=([0-9]+?)/")`. -/
def relivestat : Pat := ⟨ascii "live_stat@=", isDigit, true, ascii "/"⟩

/-! ## `responsHandle` -/

/-- The bytes of `strconv.AppendInt(nil, i, 10)`: the decimal digits, with a sign for a
negative number. -/
def formatInt (i : Int) : List Nat :=
  match i with
  | Int.ofNat n => (Nat.toDigits 10 n).map Char.toNat
  | Int.negSucc n => 45 :: (Nat.toDigits 10 (n + 1)).map Char.toNat

/-- The bytes of the Go string `"/\\0"`: a slash, a backslash and the digit
zero. -/
def keepTail : List Nat := [47, 92, 48]

/-- The bytes of the UTF-8 text before the nickname in the welcome line. -/
def welcomeHead : List Nat := [0xE6, 0xAC, 0xA2, 0xE8, 0xBF, 0x8E, 0x3A]

/-- The bytes of the UTF-8 text after the level in the welcome line, with the
closing bracket and the line feed. -/
def welcomeTail : List Nat :=
  [0x29, 0xE6, 0x9D, 0xA5, 0xE5, 0x88, 0xB0, 0xE7, 0x9B, 0xB4, 0xE6, 0x92, 0xAD,
   0xE9, 0x97, 0xB4, 0x0A]

/-- The line printed for `uenter`. -/
def welcomeLine (nickname userlevel : List Nat) : List Nat :=
  welcomeHead ++ nickname ++ ascii "(level:" ++ userlevel ++ welcomeTail

/-- The line printed for `chatmsg`. -/
def chatLine (nickname chatmsg : List Nat) : List Nat :=
  nickname ++ ascii ": " ++ chatmsg ++ [10]

/-- The database part of the `chatmsg` case. -/
def storeChat (w : World) (nickname chatmsg : List Nat) : List Effect :=
  if w.dbOK = true then
    [Effect.insert ⟨nickname, chatmsg, w.roomid⟩,
     Effect.logAffected w.insertAffected w.insertErr] ++
    (if w.insertErr then [Effect.logInsertFailed nickname chatmsg] else [])
  else []

/-- The function `responsHandle(serverres)`. Indexing a `nil` result of `FindSubmatch` with
`[1]` is a run-time panic. -/
def responsHandle (w : World) (serverres : List Nat) : Run :=
  match FindSubmatch retype serverres with
  | none => ⟨[], Exit.returned (some GoError.ErrDataTruncated)⟩
  | some respg1 =>
    if respg1 = ascii "loginres" then
      match FindSubmatch relivestat serverres with
      | none => ⟨[], Exit.panicked⟩
      | some _livestat => ⟨[], Exit.returned none⟩
    else if respg1 = ascii "keeplive" then
      let keephead := ascii "type@=keeplive/tick@="
      let tn := keephead ++ formatInt w.now
      let livemsg := tn ++ keepTail
      let r := sendmsg w livemsg
      match r.exit with
      | Exit.returned _ => ⟨r.trace, Exit.returned none⟩
      | e => ⟨r.trace, e⟩
    else if respg1 = ascii "pingreq" then
      ⟨[], Exit.returned none⟩
    else if respg1 = ascii "uenter" then
      match FindSubmatch renickname serverres with
      | none => ⟨[], Exit.panicked⟩
      | some nickname =>
        match FindSubmatch relevel serverres with
        | none => ⟨[], Exit.panicked⟩
        | some userlevel =>
          ⟨[Effect.print (welcomeLine nickname userlevel)], Exit.returned none⟩
    else if respg1 = ascii "chatmsg" then
      match FindSubmatch renickname serverres with
      | none => ⟨[], Exit.panicked⟩
      | some nickname =>
        match FindSubmatch rechatmsg serverres with
        | none => ⟨[], Exit.panicked⟩
        | some chatmsg =>
          ⟨Effect.print (chatLine nickname chatmsg) :: storeChat w nickname chatmsg,
           Exit.returned none⟩
    else
      ⟨[], Exit.returned none⟩

/-! ## `respondtoserver` -/

/-- The call `bytes.Index(s, sep)`: the first position where `sep` occurs in `s`. -/
def Index (sep : List Nat) : List Nat → Option Nat
  | [] => if sep = [] then some 0 else none
  | c :: cs =>
    match dropLit sep (c :: cs) with
    | some _ => some 0
    | none => (Index sep cs).map (fun m => m + 1)

/-- The call `bytes.Contains(b, subslice)`. -/
def Contains (b subslice : List Nat) : Bool := (Index subslice b).isSome

/-- The loop of `genSplit` in package `bytes`, for a non-empty separator, with
`k` cuts left. -/
def genSplit (sep : List Nat) : Nat → List Nat → List (List Nat)
  | 0, s => [s]
  | k + 1, s =>
    match Index sep s with
    | none => [s]
    | some m => s.take m :: genSplit sep k (s.drop (m + sep.length))

/-- The call `bytes.SplitN(s, sep, n)` for a non-empty separator and `n ≥ 0`. -/
def SplitN (s sep : List Nat) (n : Nat) : List (List Nat) :=
  if n = 0 then [] else genSplit sep (n - 1) s

/-- The separator `termindbytes`. -/
def termindbytes : List Nat := [47, 0x00]

/-- The loop `for i := 0; i < len(resgroup)-1; i++ { responsHandle(resgroup[i]) }`
over the segments still to handle. The error that `responsHandle` returns is
dropped; a panic or a fatal exit ends the loop. -/
def handleAll (w : World) : List (List Nat) → Run
  | [] => ⟨[], Exit.returned none⟩
  | seg :: segs =>
    let r := responsHandle w seg
    match r.exit with
    | Exit.returned _ =>
      let rest := handleAll w segs
      ⟨Effect.call seg :: (r.trace ++ rest.trace), rest.exit⟩
    | e => ⟨Effect.call seg :: r.trace, e⟩

/-- The function `respondtoserver(fres)`. -/
def respondtoserver (w : World) (fres : List Nat) : Run :=
  if !Contains fres termindbytes then
    ⟨[], Exit.returned (some GoError.ErrDataTruncated)⟩
  else
    let resgroup := SplitN fres termindbytes 100
    handleAll w resgroup.dropLast

/-! ## `readresponse` -/

/-- The result of `readresponse`: its trace, and how it ended together with
the returned bytes (`none` is the `nil` slice). -/
structure ReadRun where
  trace : List Effect
  exit : Exit
  result : Option (List Nat)
  deriving DecidableEq, Repr

/-- The pieces in which `tc.Read(buf[0:])`, with `var buf [1024]byte`, takes up
the bytes `pending` of one delivery: at most 1024 bytes per call (`fuel`
bounds the number of calls; the length of `pending` is enough). -/
def bufReads : Nat → List Nat → List (List Nat)
  | 0, pending => [pending]
  | fuel + 1, pending =>
    if pending.length ≤ 1024 then [pending]
    else pending.take 1024 :: bufReads fuel (pending.drop 1024)

/-- The slice `result.Bytes()` of the buffer `bytes.NewBuffer(nil)` after the
bytes `acc` were written to it: the `nil` slice while nothing was written. -/
def resultBytes (acc : List Nat) : Option (List Nat) :=
  if acc = [] then none else some acc

/-- The loop of `readresponse(tc)` over the successive results `buf[0:n]` of
`tc.Read` (each with a `nil` error), after which `tc.Read` fails with `last`
(`io.EOF` when the peer closes). `acc` is the buffer `result`. Every chunk is
handed to `respondtoserver` on its own. -/
def readLoop (w : World) (last : GoError) (acc : List Nat) : List (List Nat) → ReadRun
  | [] =>
    -- n = 0 and err != nil
    let r := respondtoserver w []
    match r.exit with
    | Exit.returned _ =>
      if last = GoError.EOF then ⟨r.trace, Exit.returned none, resultBytes acc⟩
      else ⟨r.trace, Exit.returned (some last), none⟩
    | e => ⟨r.trace, e, none⟩
  | chunk :: more =>
    let r := respondtoserver w chunk
    match r.exit with
    | Exit.returned _ =>
      let rest := readLoop w last (acc ++ chunk) more
      ⟨r.trace ++ rest.trace, rest.exit, rest.result⟩
    | e => ⟨r.trace, e, none⟩

/-- The function `readresponse(tc)` on a connection that delivers the byte
sequences `reads` one after another and then fails with `last`; a delivery
longer than the 1024-byte buffer takes several calls of `tc.Read`. -/
def readresponse (w : World) (reads : List (List Nat)) (last : GoError) : ReadRun :=
  readLoop w last [] (reads.flatMap (fun pending => bufReads pending.length pending))

/-- The payloads handed to `responsHandle`, in order. -/
def calls : List Effect → List (List Nat)
  | [] => []
  | Effect.call seg :: es => seg :: calls es
  | _ :: es => calls es

/-- The byte sequences written to the connection, in order. -/
def writes : List Effect → List (List Nat)
  | [] => []
  | Effect.write m :: es => m :: writes es
  | _ :: es => writes es

/-- The lines printed on stdout, in order. -/
def prints : List Effect → List (List Nat)
  | [] => []
  | Effect.print line :: es => line :: prints es
  | _ :: es => prints es

/-- The records handed to `db.MainDB.Insert`, in order. -/
def inserts : List Effect → List Barrage
  | [] => []
  | Effect.insert rec :: es => rec :: inserts es
  | _ :: es => inserts es

/-- The five message types that `responsHandle` tells apart. -/
def knownTypes : List (List Nat) :=
  [ascii "loginres", ascii "keeplive", ascii "pingreq", ascii "uenter", ascii "chatmsg"]

/-- The bytes `v` are the run of lowercase letters that follows the first
`type@=` of `s` which has a lowercase letter after it. -/
def TypeRun (s v : List Nat) : Prop :=
  ∃ a b, s = a ++ ascii "type@=" ++ v ++ b ∧ v ≠ [] ∧ (∀ c ∈ v, isLower c = true) ∧
    (∀ c t, b = c :: t → isLower c = false) ∧
    (∀ a1 c b1, isLower c = true → s = a1 ++ ascii "type@=" ++ c :: b1 →
      a.length ≤ a1.length)

/-- Nowhere in `s` does a lowercase letter follow `type@=`. -/
def NoTypeRun (s : List Nat) : Prop :=
  ∀ a c b, s = a ++ ascii "type@=" ++ c :: b → isLower c = false

/-- A world for the concrete runs below: clock at 1700000000, persistence
enabled and working, room 9999, the connection accepts writes. -/
def w0 : World := ⟨1700000000, true, ascii "9999", false, 1, false⟩


/-! ## Lemmas on the byte and pattern primitives -/

theorem ascii_typeKey : ascii "type@=" = [116, 121, 112, 101, 64, 61] := by decide

theorem isLE32_putUint32 (v : Nat) (h : v < 2 ^ 32) : IsLE32 (putUint32 (uint32 v)) v := by
  have hv : uint32 v = v := Nat.mod_eq_of_lt h
  rw [hv]
  refine ⟨rfl, ?_, ?_⟩
  · intro x hx
    simp only [putUint32, List.mem_cons, List.mem_singleton, List.not_mem_nil, or_false] at hx
    omega
  · simp only [putUint32, leValue]
    norm_num at h
    omega

theorem dropLit_eq_some {lit s r : List Nat} : dropLit lit s = some r ↔ s = lit ++ r := by
  induction lit generalizing s with
  | nil => simp [dropLit, eq_comm]
  | cons a t ih =>
    cases s with
    | nil => simp [dropLit]
    | cons b bs =>
      by_cases hab : a = b
      · subst hab
        simp [dropLit, ih]
      · have hba : ¬ b = a := fun h => hab h.symm
        simp [dropLit, hab, hba]

theorem dropLit_append (lit r : List Nat) : dropLit lit (lit ++ r) = some r :=
  dropLit_eq_some.mpr rfl

theorem dropLit_eq_none_of_get {lit s : List Nat} {k a : Nat} (hk : lit[k]? = some a)
    (hs : s[k]? ≠ some a) : dropLit lit s = none := by
  cases h : dropLit lit s with
  | none => rfl
  | some r =>
    exfalso
    rw [dropLit_eq_some] at h
    apply hs
    have hlt : k < lit.length := by
      by_contra hc
      rw [List.getElem?_eq_none (by omega)] at hk
      cases hk
    rw [h, List.getElem?_append_left hlt, hk]

/-- A match found at the front is the leftmost one. -/
theorem FindSubmatch_hit {p : Pat} {s g : List Nat} (h : matchAt p s = some g) :
    FindSubmatch p s = some g := by
  cases s with
  | nil => simpa [FindSubmatch] using h
  | cons c cs => simp [FindSubmatch, h]

/-- No match anywhere: `FindSubmatch` gives `nil`. -/
theorem FindSubmatch_none {p : Pat} {s : List Nat}
    (h : ∀ T, T <:+ s → matchAt p T = none) : FindSubmatch p s = none := by
  induction s with
  | nil => simpa [FindSubmatch] using h [] (List.suffix_refl _)
  | cons c cs ih =>
    have h0 := h (c :: cs) (List.suffix_refl _)
    simp only [FindSubmatch, h0]
    exact ih (fun T hT => h T (List.suffix_cons_iff.mpr (Or.inr hT)))

/-- The search passes over a stretch `X` in which no match starts. -/
theorem FindSubmatch_skip {p : Pat} {X Y : List Nat}
    (h : ∀ T, T ≠ [] → T <:+ X → matchAt p (T ++ Y) = none) :
    FindSubmatch p (X ++ Y) = FindSubmatch p Y := by
  induction X with
  | nil => rfl
  | cons c cs ih =>
    have h0 := h (c :: cs) (by simp) (List.suffix_refl _)
    simp only [List.cons_append] at h0 ⊢
    simp only [FindSubmatch, h0]
    exact ih (fun T hne hT => h T hne (List.suffix_cons_iff.mpr (Or.inr hT)))

/-- The search passes over a stretch `X` that lacks the byte `a` standing at
position `k` of the literal, when `a` is not among the first `k` bytes that
follow `X` either. -/
theorem FindSubmatch_skip_absent {p : Pat} {X Y : List Nat} {k a : Nat}
    (hk : p.pre[k]? = some a) (hX : a ∉ X) (hY : ∀ j, j < k → Y[j]? ≠ some a) :
    FindSubmatch p (X ++ Y) = FindSubmatch p Y := by
  apply FindSubmatch_skip
  intro T hne hT
  have hd : dropLit p.pre (T ++ Y) = none := by
    apply dropLit_eq_none_of_get hk
    by_cases hlt : k < T.length
    · rw [List.getElem?_append_left hlt]
      intro hc
      have hmem : a ∈ T := by
        rw [List.getElem?_eq_getElem hlt] at hc
        cases hc
        exact List.getElem_mem hlt
      exact hX (hT.subset hmem)
    · have hpos : 0 < T.length := List.length_pos.mpr hne
      rw [List.getElem?_append_right (by omega)]
      exact hY _ (by omega)
  simp [matchAt, hd]

/-- The lazy group stops at the first slash after a non-empty run of
admissible bytes. -/
theorem lazyPlus_hit (cls : Nat → Bool) (n rest : List Nat) (hne : n ≠ [])
    (h : ∀ c ∈ n, cls c = true ∧ c ≠ 47) :
    lazyPlus cls [47] (n ++ 47 :: rest) = some n := by
  induction n with
  | nil => exact absurd rfl hne
  | cons c cs ih =>
    have hc := h c (by simp)
    cases cs with
    | nil => simp [lazyPlus, hc.1, dropLit]
    | cons d ds =>
      have hd := h d (by simp)
      have hd47 : ¬ 47 = d := fun e => hd.2 e.symm
      have := ih (by simp) (fun x hx => h x (List.mem_cons_of_mem _ hx))
      simp only [List.cons_append] at this ⊢
      rw [lazyPlus, this]
      simp [hc.1, dropLit, hd47]

/-- The greedy group without continuation fails exactly where no admissible
byte stands. -/
theorem greedyPlus_nil_none (cls : Nat → Bool) (s : List Nat)
    (h : ∀ c t, s = c :: t → cls c = false) : greedyPlus cls [] s = none := by
  cases s with
  | nil => rfl
  | cons c t => simp [greedyPlus, h c t rfl]

/-- The greedy group without continuation takes the whole run of admissible
bytes. -/
theorem greedyPlus_run (cls : Nat → Bool) (v rest : List Nat) (hne : v ≠ [])
    (hv : ∀ c ∈ v, cls c = true) (hrest : ∀ c t, rest = c :: t → cls c = false) :
    greedyPlus cls [] (v ++ rest) = some v := by
  induction v with
  | nil => exact absurd rfl hne
  | cons c cs ih =>
    have hc := hv c (by simp)
    cases cs with
    | nil =>
      simp [greedyPlus, hc, greedyPlus_nil_none cls rest hrest, dropLit]
    | cons d ds =>
      have := ih (by simp) (fun x hx => hv x (List.mem_cons_of_mem _ hx))
      simp only [List.cons_append] at this ⊢
      rw [greedyPlus, this]
      simp [hc]

/-- The greedy group without continuation needs an admissible first byte. -/
theorem greedyPlus_some_head {cls : Nat → Bool} {s g : List Nat}
    (h : greedyPlus cls [] s = some g) : ∃ c t, s = c :: t ∧ cls c = true := by
  cases s with
  | nil => simp [greedyPlus] at h
  | cons c t =>
    by_cases hc : cls c = true
    · exact ⟨c, t, rfl, hc⟩
    · simp [greedyPlus, hc] at h

/-- The trace of `responsHandle` itself holds no call event. -/
theorem calls_responsHandle (w : World) (s : List Nat) :
    calls (responsHandle w s).trace = [] := by
  unfold responsHandle
  repeat' split
  all_goals simp_all [calls, sendmsg, storeChat]
  all_goals (repeat' split) <;> simp [calls]

theorem calls_append (xs ys : List Effect) : calls (xs ++ ys) = calls xs ++ calls ys := by
  induction xs with
  | nil => rfl
  | cons e es ih => cases e <;> simp [calls, ih]

/-- The first terminator of `X ++ "/\x00"` stands at the end when `X` holds
none. -/
theorem Index_append_term (X : List Nat) (h : ∀ a c, X ≠ a ++ termindbytes ++ c) :
    Index termindbytes (X ++ termindbytes) = some X.length := by
  induction X with
  | nil => simp [Index, termindbytes, dropLit]
  | cons x xs ih =>
    have hd : dropLit termindbytes (x :: xs ++ termindbytes) = none := by
      cases hx : dropLit termindbytes (x :: xs ++ termindbytes) with
      | none => rfl
      | some r =>
        exfalso
        rw [dropLit_eq_some] at hx
        cases xs with
        | nil => simp [termindbytes] at hx
        | cons y ys =>
          simp only [termindbytes, List.cons_append, List.cons.injEq, List.nil_append] at hx
          obtain ⟨h1, h2, _⟩ := hx
          exact h [] ys (by simp [termindbytes, h1, h2])
    have ih2 := ih (fun a c hc => h (x :: a) c (by simp [hc]))
    simp only [List.cons_append] at hd ⊢
    simp [Index, hd, ih2]

/-! ## The outbound frame (`sendmsg`) -/

/-- C1: for every body `b` (the empty one included) with `len(b)+9 < 2^32`,
`sendmsg` makes one write, of the bytes `LE32(len(b)+9) ++ LE32(len(b)+9) ++
LE32(689) ++ b ++ [0]`; the length field stands twice and the frame has
`len(b)+13` bytes. -/
theorem sendmsg_writes_frame (w : World) (b : List Nat) (h : b.length + 9 < 2 ^ 32) :
    ∃ len ty, IsLE32 len (b.length + 9) ∧ IsLE32 ty 689 ∧
      (sendmsg w b).trace = [Effect.write (len ++ len ++ ty ++ b ++ [0])] ∧
      (len ++ len ++ ty ++ b ++ [0]).length = b.length + 13 := by
  refine ⟨putUint32 (uint32 (b.length + 9)), putUint32 (uint32 689),
    isLE32_putUint32 _ h, isLE32_putUint32 _ (by norm_num), ?_, ?_⟩
  · simp [sendmsg, msgall, msghead]
  · simp [putUint32]

/-- C1 at the empty body. -/
theorem sendmsg_writes_frame_witness :
    ∃ len ty, IsLE32 len (([] : List Nat).length + 9) ∧ IsLE32 ty 689 ∧
      (sendmsg w0 []).trace = [Effect.write (len ++ len ++ ty ++ [] ++ [0])] ∧
      (len ++ len ++ ty ++ ([] : List Nat) ++ [0]).length = ([] : List Nat).length + 13 :=
  sendmsg_writes_frame w0 [] (by decide)

/-! ## Frames handed back to the decoder -/

/-- C2 as stated fails: for the body `type@=mrkl/`, which ends with a slash, the one payload that
`respondtoserver` hands to `responsHandle` is not the body; it is the frame
without its last two bytes, the 12 header bytes included and the closing
slash removed. -/
theorem frame_payload_is_not_body :
    (ascii "type@=mrkl/").getLast? = some 47 ∧
    calls (respondtoserver w0 (msgall (ascii "type@=mrkl/"))).trace
        ≠ [ascii "type@=mrkl/"] ∧
      calls (respondtoserver w0 (msgall (ascii "type@=mrkl/"))).trace
        = [[20, 0, 0, 0, 20, 0, 0, 0, 177, 2, 0, 0] ++ ascii "type@=mrkl"] := by
  decide

/-- C2, amended: for every body `b = c ++ "/"` such that the 12 header bytes
followed by `c` hold no terminator (`/` followed by `0x00`), the frame that
`sendmsg` builds for `b` makes `respondtoserver` invoke `responsHandle` exactly
once, on the 12 header bytes followed by `c`. -/
theorem frame_dispatches_header_and_body (w : World) (c : List Nat)
    (h : ∀ x y, msghead (c ++ [47]) ++ c ≠ x ++ termindbytes ++ y) :
    calls (respondtoserver w (msgall (c ++ [47]))).trace
      = [msghead (c ++ [47]) ++ c] := by
  have hframe : msgall (c ++ [47]) = (msghead (c ++ [47]) ++ c) ++ termindbytes := by
    simp [msgall, termindbytes]
  generalize hX : msghead (c ++ [47]) ++ c = X at h hframe
  rw [hframe]
  have hidx := Index_append_term X h
  have hcont : Contains (X ++ termindbytes) termindbytes = true := by
    simp [Contains, hidx]
  have hsplit : SplitN (X ++ termindbytes) termindbytes 100 = [X, []] := by
    have h0 : SplitN (X ++ termindbytes) termindbytes 100
        = genSplit termindbytes (98 + 1) (X ++ termindbytes) := rfl
    have hnil : genSplit termindbytes 98 [] = [[]] := rfl
    rw [h0, genSplit, hidx]
    simp only [List.take_left', List.drop_left', List.drop_append, List.drop_length,
      List.nil_append, hnil]
  have hrun : respondtoserver w (X ++ termindbytes) = handleAll w [X] := by
    unfold respondtoserver
    rw [hcont, hsplit]
    rfl
  rw [hrun]
  simp only [handleAll]
  split <;> simp [calls, calls_append, calls_responsHandle]

/-- C2, amended, at the body `type@=mrkl/`. -/
theorem frame_dispatches_header_and_body_witness :
    calls (respondtoserver w0 (msgall (ascii "type@=mrkl" ++ [47]))).trace
      = [msghead (ascii "type@=mrkl" ++ [47]) ++ ascii "type@=mrkl"] :=
  frame_dispatches_header_and_body w0 (ascii "type@=mrkl") (by
    intro x y hxy
    have hc : Index termindbytes (msghead (ascii "type@=mrkl" ++ [47])
        ++ ascii "type@=mrkl") = none := by decide
    rw [hxy] at hc
    revert hc
    clear hxy
    induction x with
    | nil => simp [Index, termindbytes, dropLit]
    | cons a t ih =>
      intro hc
      simp only [List.cons_append, Index] at hc
      split at hc
      · cases hc
      · simp only [Option.map_eq_none'] at hc
        exact ih (by simpa using hc))

/-! ## Field extraction in `responsHandle` -/

theorem retype_eq : retype = ⟨[116, 121, 112, 101, 64, 61], isLower, false, []⟩ := by
  unfold retype; congr 1

theorem renickname_eq : renickname = ⟨[110, 110, 64, 61], notNL, true, [47]⟩ := by
  unfold renickname; congr 1

theorem rechatmsg_eq : rechatmsg = ⟨[116, 120, 116, 64, 61], notNL, true, [47]⟩ := by
  unfold rechatmsg; congr 1

theorem relevel_eq : relevel = ⟨[108, 101, 118, 101, 108, 64, 61], isDigit, true, [47]⟩ := by
  unfold relevel; congr 1

theorem isDigit_bounds {c : Nat} (h : isDigit c = true) : 48 ≤ c ∧ c ≤ 57 := by
  simpa [isDigit] using h

theorem isAlnum_bounds {c : Nat} (h : isAlnum c = true) :
    (97 ≤ c ∧ c ≤ 122) ∨ (65 ≤ c ∧ c ≤ 90) ∨ (48 ≤ c ∧ c ≤ 57) := by
  simpa [isAlnum, isLower, isUpper, isDigit, or_assoc] using h

/-- C9: for a non-empty nickname `n` of ASCII letters and digits, a non-empty
digit string `l` and digit strings `r`, `u`, `responsHandle` on the body
`type@=uenter/rid@=r/uid@=u/nn@=n/level@=l/` prints exactly one line, the
UTF-8 bytes of the welcome text and a colon, then `n`, then `(level:`, then `l`,
then the closing bracket, the UTF-8 bytes of the rest of the welcome text and a
line feed; it sends no frame and returns `nil`. -/
theorem uenter_welcome (w : World) (n l r u : List Nat)
    (hn : n ≠ []) (hnA : ∀ c ∈ n, isAlnum c = true)
    (hl : l ≠ []) (hlD : ∀ c ∈ l, isDigit c = true)
    (hr : ∀ c ∈ r, isDigit c = true) (hu : ∀ c ∈ u, isDigit c = true) :
    responsHandle w (ascii "type@=uenter/rid@=" ++ r ++ ascii "/uid@=" ++ u ++ ascii "/nn@="
        ++ n ++ ascii "/level@=" ++ l ++ ascii "/")
      = ⟨[Effect.print ([0xE6, 0xAC, 0xA2, 0xE8, 0xBF, 0x8E, 0x3A] ++ n
            ++ [40, 108, 101, 118, 101, 108, 58] ++ l
            ++ [0x29, 0xE6, 0x9D, 0xA5, 0xE5, 0x88, 0xB0, 0xE7, 0x9B, 0xB4, 0xE6, 0x92, 0xAD,
                0xE9, 0x97, 0xB4, 0x0A])], Exit.returned none⟩ := by
  have a1 : ascii "type@=uenter/rid@="
      = [116, 121, 112, 101, 64, 61, 117, 101, 110, 116, 101, 114, 47, 114, 105, 100, 64, 61] := by
    decide
  have a2 : ascii "/uid@=" = [47, 117, 105, 100, 64, 61] := by decide
  have a3 : ascii "/nn@=" = [47, 110, 110, 64, 61] := by decide
  have a4 : ascii "/level@=" = [47, 108, 101, 118, 101, 108, 64, 61] := by decide
  have a5 : ascii "/" = [47] := by decide
  rw [a1, a2, a3, a4, a5]
  simp only [List.append_assoc, List.cons_append, List.nil_append]
  have hty : FindSubmatch retype (116 :: 121 :: 112 :: 101 :: 64 :: 61 :: 117 :: 101 :: 110
      :: 116 :: 101 :: 114 :: 47 :: 114 :: 105 :: 100 :: 64 :: 61 :: (r ++ 47 :: 117 :: 105
      :: 100 :: 64 :: 61 :: (u ++ 47 :: 110 :: 110 :: 64 :: 61 :: (n ++ 47 :: 108 :: 101 :: 118
      :: 101 :: 108 :: 64 :: 61 :: (l ++ [47]))))) = some (ascii "uenter") := by
    apply FindSubmatch_hit
    simp [matchAt, retype_eq, dropLit, greedyPlus, isLower]
    decide
  have dig_nn : ∀ X Y : List Nat, (∀ c ∈ X, isDigit c = true) →
      FindSubmatch renickname (X ++ Y) = FindSubmatch renickname Y := by
    intro X Y hX
    apply FindSubmatch_skip_absent (k := 0) (a := 110)
    · rw [renickname_eq]; rfl
    · intro hmem
      have := isDigit_bounds (hX _ hmem)
      omega
    · intro j hj; omega
  have dig_lv : ∀ X Y : List Nat, (∀ c ∈ X, isDigit c = true) →
      FindSubmatch relevel (X ++ Y) = FindSubmatch relevel Y := by
    intro X Y hX
    apply FindSubmatch_skip_absent (k := 0) (a := 108)
    · rw [relevel_eq]; rfl
    · intro hmem
      have := isDigit_bounds (hX _ hmem)
      omega
    · intro j hj; omega
  have hnn : FindSubmatch renickname (116 :: 121 :: 112 :: 101 :: 64 :: 61 :: 117 :: 101 :: 110
      :: 116 :: 101 :: 114 :: 47 :: 114 :: 105 :: 100 :: 64 :: 61 :: (r ++ 47 :: 117 :: 105
      :: 100 :: 64 :: 61 :: (u ++ 47 :: 110 :: 110 :: 64 :: 61 :: (n ++ 47 :: 108 :: 101 :: 118
      :: 101 :: 108 :: 64 :: 61 :: (l ++ [47]))))) = some n := by
    have s1 : ∀ Y, FindSubmatch renickname (116 :: 121 :: 112 :: 101 :: 64 :: 61 :: 117 :: 101
        :: 110 :: 116 :: 101 :: 114 :: 47 :: 114 :: 105 :: 100 :: 64 :: 61 :: Y)
        = FindSubmatch renickname Y := by
      intro Y; simp [FindSubmatch, matchAt, renickname_eq, dropLit]
    have s2 : ∀ Y, FindSubmatch renickname (47 :: 117 :: 105 :: 100 :: 64 :: 61 :: Y)
        = FindSubmatch renickname Y := by
      intro Y; simp [FindSubmatch, matchAt, renickname_eq, dropLit]
    have s3 : ∀ Y, FindSubmatch renickname (47 :: Y) = FindSubmatch renickname Y := by
      intro Y; simp [FindSubmatch, matchAt, renickname_eq, dropLit]
    rw [s1, dig_nn r _ hr, s2, dig_nn u _ hu, s3]
    apply FindSubmatch_hit
    simp only [matchAt, renickname_eq, dropLit, if_true]
    apply lazyPlus_hit notNL n _ hn
    intro c hc
    have := isAlnum_bounds (hnA c hc)
    constructor
    · simp only [notNL, decide_eq_true_eq]; omega
    · omega
  have hlv : FindSubmatch relevel (116 :: 121 :: 112 :: 101 :: 64 :: 61 :: 117 :: 101 :: 110
      :: 116 :: 101 :: 114 :: 47 :: 114 :: 105 :: 100 :: 64 :: 61 :: (r ++ 47 :: 117 :: 105
      :: 100 :: 64 :: 61 :: (u ++ 47 :: 110 :: 110 :: 64 :: 61 :: (n ++ 47 :: 108 :: 101 :: 118
      :: 101 :: 108 :: 64 :: 61 :: (l ++ [47]))))) = some l := by
    have s1 : ∀ Y, FindSubmatch relevel (116 :: 121 :: 112 :: 101 :: 64 :: 61 :: 117 :: 101
        :: 110 :: 116 :: 101 :: 114 :: 47 :: 114 :: 105 :: 100 :: 64 :: 61 :: Y)
        = FindSubmatch relevel Y := by
      intro Y; simp [FindSubmatch, matchAt, relevel_eq, dropLit]
    have s2 : ∀ Y, FindSubmatch relevel (47 :: 117 :: 105 :: 100 :: 64 :: 61 :: Y)
        = FindSubmatch relevel Y := by
      intro Y; simp [FindSubmatch, matchAt, relevel_eq, dropLit]
    have s3 : ∀ Y, FindSubmatch relevel (47 :: 110 :: 110 :: 64 :: 61 :: Y)
        = FindSubmatch relevel Y := by
      intro Y; simp [FindSubmatch, matchAt, relevel_eq, dropLit]
    have s4 : ∀ Y, FindSubmatch relevel (47 :: Y) = FindSubmatch relevel Y := by
      intro Y; simp [FindSubmatch, matchAt, relevel_eq, dropLit]
    have s5 : FindSubmatch relevel (n ++ 47 :: 108 :: 101 :: 118 :: 101 :: 108 :: 64 :: 61
        :: (l ++ [47])) = FindSubmatch relevel (47 :: 108 :: 101 :: 118 :: 101 :: 108 :: 64
        :: 61 :: (l ++ [47])) := by
      apply FindSubmatch_skip_absent (k := 5) (a := 64)
      · rw [relevel_eq]; rfl
      · intro hmem
        have := isAlnum_bounds (hnA _ hmem)
        omega
      · intro j hj
        interval_cases j <;> simp
    rw [s1, dig_lv r _ hr, s2, dig_lv u _ hu, s3, s5, s4]
    apply FindSubmatch_hit
    simp only [matchAt, relevel_eq, dropLit, if_true]
    apply lazyPlus_hit isDigit l _ hl
    intro c hc
    have := isDigit_bounds (hlD c hc)
    exact ⟨hlD c hc, by omega⟩
  have k1 : ascii "uenter" ≠ ascii "loginres" := by decide
  have k2 : ascii "uenter" ≠ ascii "keeplive" := by decide
  have k3 : ascii "uenter" ≠ ascii "pingreq" := by decide
  have k4 : welcomeLine n l = [0xE6, 0xAC, 0xA2, 0xE8, 0xBF, 0x8E, 0x3A] ++ n
      ++ [40, 108, 101, 118, 101, 108, 58] ++ l
      ++ [0x29, 0xE6, 0x9D, 0xA5, 0xE5, 0x88, 0xB0, 0xE7, 0x9B, 0xB4, 0xE6, 0x92, 0xAD,
          0xE9, 0x97, 0xB4, 0x0A] := by
    have k5 : ascii "(level:" = [40, 108, 101, 118, 101, 108, 58] := by decide
    simp only [welcomeLine, welcomeHead, welcomeTail, k5]
  unfold responsHandle
  rw [hty, hnn, hlv]
  simp only [k1, k2, k3, if_false, if_true, k4, List.append_assoc, List.cons_append,
    List.nil_append]

/-- C9 at the nickname `uux` and the level `22` (room 97376, user 11880384). -/
theorem uenter_welcome_witness :
    responsHandle w0 (ascii "type@=uenter/rid@=" ++ ascii "97376" ++ ascii "/uid@="
        ++ ascii "11880384" ++ ascii "/nn@=" ++ ascii "uux" ++ ascii "/level@=" ++ ascii "22"
        ++ ascii "/")
      = ⟨[Effect.print ([0xE6, 0xAC, 0xA2, 0xE8, 0xBF, 0x8E, 0x3A] ++ ascii "uux"
            ++ [40, 108, 101, 118, 101, 108, 58] ++ ascii "22"
            ++ [0x29, 0xE6, 0x9D, 0xA5, 0xE5, 0x88, 0xB0, 0xE7, 0x9B, 0xB4, 0xE6, 0x92, 0xAD,
                0xE9, 0x97, 0xB4, 0x0A])], Exit.returned none⟩ :=
  uenter_welcome w0 (ascii "uux") (ascii "22") (ascii "97376") (ascii "11880384")
    (by decide) (by decide) (by decide) (by decide) (by decide) (by decide)


/-- A literal found at the front of `T ++ sep :: Y` lies within `T` when the
byte `sep` is not part of the literal. -/
theorem dropLit_within {lit T Y r : List Nat} {sep : Nat} (hsep : sep ∉ lit)
    (h : dropLit lit (T ++ sep :: Y) = some r) : ∃ c, T = lit ++ c := by
  rw [dropLit_eq_some, List.append_eq_append_iff] at h
  rcases h with ⟨a, h1, h2⟩ | ⟨c, h1, _⟩
  · cases a with
    | nil => exact ⟨[], by simpa using h1.symm⟩
    | cons x xs =>
      exfalso
      simp only [List.cons_append, List.cons.injEq] at h2
      apply hsep
      rw [h1, h2.1]
      simp
  · exact ⟨c, h1⟩

/-- C5 as stated fails: with the empty nickname and the text `hello`, both
without a slash, the nickname that `responsHandle` extracts is `/txt@=hello`; the line `: hello` is
not printed and no record with the empty nickname is inserted. -/
theorem chatmsg_empty_nickname :
    (47 : Nat) ∉ ([] : List Nat) ∧ (47 : Nat) ∉ ascii "hello" ∧
    (responsHandle w0 (ascii "type@=chatmsg/nn@=" ++ [] ++ ascii "/txt@=" ++ ascii "hello"
        ++ ascii "/")).trace
      = [Effect.print (ascii "/txt@=hello: hello" ++ [10]),
         Effect.insert ⟨ascii "/txt@=hello", ascii "hello", ascii "9999"⟩,
         Effect.logAffected 1 false] ∧
    prints (responsHandle w0 (ascii "type@=chatmsg/nn@=" ++ [] ++ ascii "/txt@="
        ++ ascii "hello" ++ ascii "/")).trace ≠ [[] ++ ascii ": " ++ ascii "hello" ++ [10]] ∧
    inserts (responsHandle w0 (ascii "type@=chatmsg/nn@=" ++ [] ++ ascii "/txt@="
        ++ ascii "hello" ++ ascii "/")).trace ≠ [⟨[], ascii "hello", w0.roomid⟩] := by
  decide

/-- C5, amended: for every non-empty nickname `n` and non-empty text `t` that
hold no `/` and no line feed, `n` not containing the text `txt@=`,
`responsHandle` on the body `type@=chatmsg/nn@=n/txt@=t/` prints exactly the
line `n: t`, makes exactly one insert, of the record with `Nickname = n`,
`Chatmsg = t` and the room id of the session, when persistence is enabled
(none otherwise), sends nothing and returns `nil`. -/
theorem chatmsg_extracts (w : World) (n t : List Nat)
    (hn : n ≠ []) (ht : t ≠ [])
    (hnc : ∀ c ∈ n, c ≠ 47 ∧ c ≠ 10) (htc : ∀ c ∈ t, c ≠ 47 ∧ c ≠ 10)
    (hnx : ∀ a b, n ≠ a ++ ascii "txt@=" ++ b) :
    prints (responsHandle w (ascii "type@=chatmsg/nn@=" ++ n ++ ascii "/txt@=" ++ t
        ++ ascii "/")).trace = [n ++ ascii ": " ++ t ++ [10]] ∧
    inserts (responsHandle w (ascii "type@=chatmsg/nn@=" ++ n ++ ascii "/txt@=" ++ t
        ++ ascii "/")).trace = (if w.dbOK = true then [⟨n, t, w.roomid⟩] else []) ∧
    writes (responsHandle w (ascii "type@=chatmsg/nn@=" ++ n ++ ascii "/txt@=" ++ t
        ++ ascii "/")).trace = [] ∧
    (responsHandle w (ascii "type@=chatmsg/nn@=" ++ n ++ ascii "/txt@=" ++ t
        ++ ascii "/")).exit = Exit.returned none := by
  have a1 : ascii "type@=chatmsg/nn@="
      = [116, 121, 112, 101, 64, 61, 99, 104, 97, 116, 109, 115, 103, 47, 110, 110, 64, 61] := by
    decide
  have a2 : ascii "/txt@=" = [47, 116, 120, 116, 64, 61] := by decide
  have a3 : ascii "/" = [47] := by decide
  have a4 : ascii "txt@=" = [116, 120, 116, 64, 61] := by decide
  rw [a4] at hnx
  rw [a1, a2, a3]
  simp only [List.append_assoc, List.cons_append, List.nil_append]
  have hty : FindSubmatch retype (116 :: 121 :: 112 :: 101 :: 64 :: 61 :: 99 :: 104 :: 97
      :: 116 :: 109 :: 115 :: 103 :: 47 :: 110 :: 110 :: 64 :: 61 :: (n ++ 47 :: 116 :: 120
      :: 116 :: 64 :: 61 :: (t ++ [47]))) = some (ascii "chatmsg") := by
    apply FindSubmatch_hit
    simp [matchAt, retype_eq, dropLit, greedyPlus, isLower]
    decide
  have hnn : FindSubmatch renickname (116 :: 121 :: 112 :: 101 :: 64 :: 61 :: 99 :: 104 :: 97
      :: 116 :: 109 :: 115 :: 103 :: 47 :: 110 :: 110 :: 64 :: 61 :: (n ++ 47 :: 116 :: 120
      :: 116 :: 64 :: 61 :: (t ++ [47]))) = some n := by
    have s1 : ∀ Y, FindSubmatch renickname (116 :: 121 :: 112 :: 101 :: 64 :: 61 :: 99 :: 104
        :: 97 :: 116 :: 109 :: 115 :: 103 :: 47 :: Y) = FindSubmatch renickname Y := by
      intro Y; simp [FindSubmatch, matchAt, renickname_eq, dropLit]
    rw [s1]
    apply FindSubmatch_hit
    simp only [matchAt, renickname_eq, dropLit, if_true]
    apply lazyPlus_hit notNL n _ hn
    intro c hc
    exact ⟨by simpa [notNL] using (hnc c hc).2, (hnc c hc).1⟩
  have htx : FindSubmatch rechatmsg (116 :: 121 :: 112 :: 101 :: 64 :: 61 :: 99 :: 104 :: 97
      :: 116 :: 109 :: 115 :: 103 :: 47 :: 110 :: 110 :: 64 :: 61 :: (n ++ 47 :: 116 :: 120
      :: 116 :: 64 :: 61 :: (t ++ [47]))) = some t := by
    have s1 : ∀ Y, FindSubmatch rechatmsg (116 :: 121 :: 112 :: 101 :: 64 :: 61 :: 99 :: 104
        :: 97 :: 116 :: 109 :: 115 :: 103 :: 47 :: 110 :: 110 :: 64 :: 61 :: Y)
        = FindSubmatch rechatmsg Y := by
      intro Y; simp [FindSubmatch, matchAt, rechatmsg_eq, dropLit]
    have s2 : ∀ Y, FindSubmatch rechatmsg (47 :: Y) = FindSubmatch rechatmsg Y := by
      intro Y; simp [FindSubmatch, matchAt, rechatmsg_eq, dropLit]
    have s3 : FindSubmatch rechatmsg (n ++ 47 :: 116 :: 120 :: 116 :: 64 :: 61 :: (t ++ [47]))
        = FindSubmatch rechatmsg (47 :: 116 :: 120 :: 116 :: 64 :: 61 :: (t ++ [47])) := by
      apply FindSubmatch_skip
      intro T _ hT
      cases hd : dropLit rechatmsg.pre (T ++ 47 :: 116 :: 120 :: 116 :: 64 :: 61 :: (t ++ [47]))
        with
      | none => simp [matchAt, hd]
      | some r =>
        exfalso
        rw [rechatmsg_eq] at hd
        obtain ⟨c, hc⟩ := dropLit_within (by decide) hd
        obtain ⟨a, ha⟩ := hT
        exact hnx a c (by rw [← ha, hc, List.append_assoc])
    rw [s1, s3, s2]
    apply FindSubmatch_hit
    simp only [matchAt, rechatmsg_eq, dropLit, if_true]
    apply lazyPlus_hit notNL t _ ht
    intro c hc
    exact ⟨by simpa [notNL] using (htc c hc).2, (htc c hc).1⟩
  have k1 : ascii "chatmsg" ≠ ascii "loginres" := by decide
  have k2 : ascii "chatmsg" ≠ ascii "keeplive" := by decide
  have k3 : ascii "chatmsg" ≠ ascii "pingreq" := by decide
  have k4 : ascii "chatmsg" ≠ ascii "uenter" := by decide
  have k5 : ascii ": " = [58, 32] := by decide
  unfold responsHandle
  rw [hty, hnn, htx]
  simp only [k1, k2, k3, k4, if_false, if_true]
  refine ⟨?_, ?_, ?_, trivial⟩
  · unfold storeChat
    by_cases hdb : w.dbOK = true <;> by_cases he : w.insertErr = true <;>
      simp [prints, chatLine, hdb, he, k5]
  · unfold storeChat
    by_cases hdb : w.dbOK = true <;> by_cases he : w.insertErr = true <;>
      simp [inserts, hdb, he]
  · unfold storeChat
    by_cases hdb : w.dbOK = true <;> by_cases he : w.insertErr = true <;>
      simp [writes, hdb, he]

/-- C5, amended, at the nickname `Alice` and the text `hello`. -/
theorem chatmsg_extracts_witness :
    prints (responsHandle w0 (ascii "type@=chatmsg/nn@=" ++ ascii "Alice" ++ ascii "/txt@="
        ++ ascii "hello" ++ ascii "/")).trace
      = [ascii "Alice" ++ ascii ": " ++ ascii "hello" ++ [10]] ∧
    inserts (responsHandle w0 (ascii "type@=chatmsg/nn@=" ++ ascii "Alice" ++ ascii "/txt@="
        ++ ascii "hello" ++ ascii "/")).trace
      = (if w0.dbOK = true then [⟨ascii "Alice", ascii "hello", w0.roomid⟩] else []) ∧
    writes (responsHandle w0 (ascii "type@=chatmsg/nn@=" ++ ascii "Alice" ++ ascii "/txt@="
        ++ ascii "hello" ++ ascii "/")).trace = [] ∧
    (responsHandle w0 (ascii "type@=chatmsg/nn@=" ++ ascii "Alice" ++ ascii "/txt@="
        ++ ascii "hello" ++ ascii "/")).exit = Exit.returned none :=
  chatmsg_extracts w0 (ascii "Alice") (ascii "hello") (by decide) (by decide) (by decide)
    (by decide) (by
      intro a b hab
      have hmem : (64 : Nat) ∈ ascii "Alice" := by
        rw [hab]
        have : (64 : Nat) ∈ ascii "txt@=" := by decide
        simp [this]
      revert hmem
      decide)


/-! ## Classification by type -/

theorem matchAt_retype (x : List Nat) :
    matchAt retype x = (dropLit (ascii "type@=") x).bind (greedyPlus isLower []) := by
  unfold matchAt retype
  cases dropLit (ascii "type@=") x <;> rfl

/-- A match of the type pattern at the front of `x` means that `x` starts with
`type@=` and a lowercase letter. -/
theorem matchAt_retype_some {x g : List Nat} (h : matchAt retype x = some g) :
    ∃ c t, x = ascii "type@=" ++ c :: t ∧ isLower c = true := by
  rw [matchAt_retype] at h
  cases hd : dropLit (ascii "type@=") x with
  | none => simp [hd] at h
  | some r =>
    rw [hd] at h
    obtain ⟨c, t, hr, hc⟩ := greedyPlus_some_head h
    exact ⟨c, t, by rw [← hr]; exact dropLit_eq_some.mp hd, hc⟩

/-- The type pattern captures the run described by `TypeRun`. -/
theorem FindSubmatch_retype_of_run {s v : List Nat} (h : TypeRun s v) :
    FindSubmatch retype s = some v := by
  obtain ⟨a, b, hs, hne, hv, hb, hmin⟩ := h
  have hs2 : s = a ++ (ascii "type@=" ++ (v ++ b)) := by simp [hs]
  rw [hs2]
  have hskip : FindSubmatch retype (a ++ (ascii "type@=" ++ (v ++ b)))
      = FindSubmatch retype (ascii "type@=" ++ (v ++ b)) := by
    apply FindSubmatch_skip
    intro T hT hsuf
    cases hm : matchAt retype (T ++ (ascii "type@=" ++ (v ++ b))) with
    | none => rfl
    | some g =>
      exfalso
      obtain ⟨c, t, hx, hc⟩ := matchAt_retype_some hm
      obtain ⟨a0, ha0⟩ := hsuf
      have hlen := hmin a0 c t hc (by rw [hs2, ← ha0, List.append_assoc, hx, List.append_assoc])
      have hpos : 0 < T.length := List.length_pos.mpr hT
      rw [← ha0, List.length_append] at hlen
      omega
  rw [hskip]
  apply FindSubmatch_hit
  rw [matchAt_retype, dropLit_append]
  exact greedyPlus_run isLower v b hne hv hb

/-- The type pattern finds nothing in a payload described by `NoTypeRun`. -/
theorem FindSubmatch_retype_of_none {s : List Nat} (h : NoTypeRun s) :
    FindSubmatch retype s = none := by
  apply FindSubmatch_none
  intro T hsuf
  cases hm : matchAt retype T with
  | none => rfl
  | some g =>
    exfalso
    obtain ⟨c, t, hx, hc⟩ := matchAt_retype_some hm
    obtain ⟨a0, ha0⟩ := hsuf
    have := h a0 c t (by rw [← ha0, hx, List.append_assoc])
    rw [this] at hc
    cases hc

/-- C8 as stated fails. The type value `keeplive2` is none of the five names,
yet `responsHandle` answers with a frame; and the payload `subtype@=keeplive/`
has no `type` attribute at all, yet `responsHandle` answers with a frame. -/
theorem other_type_value_answered :
    ascii "keeplive2" ∉ knownTypes ∧
    writes (responsHandle w0 (ascii "type@=" ++ ascii "keeplive2" ++ ascii "/")).trace ≠ [] ∧
    writes (responsHandle w0 (ascii "subtype@=" ++ ascii "keeplive" ++ ascii "/")).trace
      ≠ [] := by
  decide

/-- C8, amended: for every payload in which the run of lowercase letters after
the first `type@=` that is followed by a lowercase letter is none of
`loginres`, `keeplive`, `pingreq`, `uenter`, `chatmsg`, and for every payload
in which no lowercase letter follows any `type@=`, `responsHandle` has no
effect (no frame, no printed line, no insert) and returns, with `nil` in the
first case and `ErrDataTruncated` in the second. -/
theorem unrecognised_payload_no_effect (w : World) (s : List Nat)
    (h : (∃ v, TypeRun s v ∧ v ∉ knownTypes) ∨ NoTypeRun s) :
    (responsHandle w s).trace = [] ∧
      ((∃ v, TypeRun s v) → (responsHandle w s).exit = Exit.returned none) ∧
      (NoTypeRun s →
        (responsHandle w s).exit = Exit.returned (some GoError.ErrDataTruncated)) := by
  have hnone : NoTypeRun s → responsHandle w s
      = ⟨[], Exit.returned (some GoError.ErrDataTruncated)⟩ := by
    intro hn
    unfold responsHandle
    rw [FindSubmatch_retype_of_none hn]
  have hrun : ∀ v, TypeRun s v → v ∉ knownTypes → responsHandle w s
      = ⟨[], Exit.returned none⟩ := by
    intro v hv hk
    simp only [knownTypes, List.mem_cons, List.mem_singleton, List.not_mem_nil, or_false,
      not_or] at hk
    obtain ⟨k1, k2, k3, k4, k5⟩ := hk
    unfold responsHandle
    rw [FindSubmatch_retype_of_run hv]
    simp only [k1, k2, k3, k4, k5, if_false]
  have hexcl : ∀ v, TypeRun s v → ¬ NoTypeRun s := by
    intro v hv hn
    have h1 := FindSubmatch_retype_of_run hv
    rw [FindSubmatch_retype_of_none hn] at h1
    cases h1
  rcases h with ⟨v, hv, hk⟩ | hn
  · rw [hrun v hv hk]
    exact ⟨rfl, fun _ => rfl, fun hn => absurd hn (hexcl v hv)⟩
  · rw [hnone hn]
    exact ⟨rfl, fun ⟨v, hv⟩ => absurd hn (hexcl v hv), fun _ => rfl⟩


/-- C8, amended, at the payloads `type@=dgb/` (a type that is none of the
five) and `rid@=1/` (no type at all). -/
theorem unrecognised_payload_no_effect_witness :
    ((responsHandle w0 (ascii "type@=dgb/")).trace = [] ∧
      ((∃ v, TypeRun (ascii "type@=dgb/") v) →
        (responsHandle w0 (ascii "type@=dgb/")).exit = Exit.returned none) ∧
      (NoTypeRun (ascii "type@=dgb/") →
        (responsHandle w0 (ascii "type@=dgb/")).exit
          = Exit.returned (some GoError.ErrDataTruncated))) ∧
    ((responsHandle w0 (ascii "rid@=1/")).trace = [] ∧
      ((∃ v, TypeRun (ascii "rid@=1/") v) →
        (responsHandle w0 (ascii "rid@=1/")).exit = Exit.returned none) ∧
      (NoTypeRun (ascii "rid@=1/") →
        (responsHandle w0 (ascii "rid@=1/")).exit
          = Exit.returned (some GoError.ErrDataTruncated))) :=
  ⟨unrecognised_payload_no_effect w0 (ascii "type@=dgb/")
      (Or.inl ⟨ascii "dgb",
        ⟨[], ascii "/", by decide, by decide, by decide,
          by
            intro c t hct
            have h47 : ascii "/" = [47] := by decide
            rw [h47] at hct
            cases hct
            decide,
          by
            intro a1 c b1 _ _
            exact Nat.zero_le _⟩,
        by decide⟩),
    unrecognised_payload_no_effect w0 (ascii "rid@=1/")
      (Or.inr (by
        intro a c b hs
        have hmem : (116 : Nat) ∈ ascii "rid@=1/" := by
          rw [hs, ascii_typeKey]
          simp
        exact absurd hmem (by decide)))⟩

/-! ## The answer to a `keeplive` message -/

/-- The answer to any payload of type `keeplive`: one frame whose body is
`type@=keeplive/tick@=`, the clock reading, a slash, a backslash and the digit
zero. -/
theorem responsHandle_keeplive (w : World) (s : List Nat)
    (h : FindSubmatch retype s = some (ascii "keeplive")) :
    (responsHandle w s).trace
      = [Effect.write
          (msgall (ascii "type@=keeplive/tick@=" ++ formatInt w.now ++ [47, 92, 48]))] := by
  have k1 : ascii "keeplive" ≠ ascii "loginres" := by decide
  unfold responsHandle
  rw [h]
  simp only [k1, if_false, if_true, sendmsg, keepTail]
  split <;> rfl

/-- C6 on the payload `type@=keeplive/tick@=1700000000/` at the clock reading
1700000000: the body of the one frame sent ends with the three bytes slash,
backslash, digit zero, so its last byte is the digit `0` (48) and not a slash
(47). -/
theorem keeplive_reply_last_byte :
    (responsHandle w0 (ascii "type@=keeplive/tick@=1700000000/")).trace
      = [Effect.write (msgall (ascii "type@=keeplive/tick@=1700000000" ++ [47, 92, 48]))] ∧
    (ascii "type@=keeplive/tick@=1700000000" ++ [47, 92, 48]).getLast? = some 48 ∧
    (ascii "type@=keeplive/tick@=1700000000" ++ [47, 92, 48])
      ≠ ascii "type@=keeplive/tick@=" ++ formatInt 1700000000 ++ ascii "/" := by
  decide

/-! ## Missing fields -/

/-- A payload of type `loginres`, `uenter` or `chatmsg` in which one of the
patterns read for that type finds nothing makes `responsHandle` panic, before
anything is printed or stored. -/
theorem responsHandle_panics_of_missing (w : World) (s : List Nat) :
    (FindSubmatch retype s = some (ascii "loginres") → FindSubmatch relivestat s = none →
      responsHandle w s = ⟨[], Exit.panicked⟩) ∧
    (FindSubmatch retype s = some (ascii "uenter") →
      FindSubmatch renickname s = none ∨ FindSubmatch relevel s = none →
      responsHandle w s = ⟨[], Exit.panicked⟩) ∧
    (FindSubmatch retype s = some (ascii "chatmsg") →
      FindSubmatch renickname s = none ∨ FindSubmatch rechatmsg s = none →
      responsHandle w s = ⟨[], Exit.panicked⟩) := by
  have k1 : ascii "uenter" ≠ ascii "loginres" := by decide
  have k2 : ascii "uenter" ≠ ascii "keeplive" := by decide
  have k3 : ascii "uenter" ≠ ascii "pingreq" := by decide
  have k4 : ascii "chatmsg" ≠ ascii "loginres" := by decide
  have k5 : ascii "chatmsg" ≠ ascii "keeplive" := by decide
  have k6 : ascii "chatmsg" ≠ ascii "pingreq" := by decide
  have k7 : ascii "chatmsg" ≠ ascii "uenter" := by decide
  refine ⟨?_, ?_, ?_⟩
  · intro ht hf
    unfold responsHandle
    rw [ht, hf]
    simp
  · intro ht hf
    unfold responsHandle
    rw [ht]
    simp only [k1, k2, k3, if_false, if_true]
    rcases hf with hf | hf
    · rw [hf]
    · rw [hf]
      cases FindSubmatch renickname s <;> rfl
  · intro ht hf
    unfold responsHandle
    rw [ht]
    simp only [k4, k5, k6, k7, if_false, if_true]
    rcases hf with hf | hf
    · rw [hf]
    · rw [hf]
      cases FindSubmatch renickname s <;> rfl

/-- C7 on payloads that lack an expected field: `responsHandle` panics on
each of them, and in a buffer of two frames the panic on the first one keeps
the second one from being dispatched. -/
theorem missing_field_panics :
    (responsHandle w0 (ascii "type@=loginres/")).exit = Exit.panicked ∧
    (responsHandle w0 (ascii "type@=uenter/level@=22/")).exit = Exit.panicked ∧
    (responsHandle w0 (ascii "type@=uenter/nn@=uux/")).exit = Exit.panicked ∧
    (responsHandle w0 (ascii "type@=chatmsg/txt@=hello/")).exit = Exit.panicked ∧
    (responsHandle w0 (ascii "type@=chatmsg/nn@=Alice/")).exit = Exit.panicked ∧
    respondtoserver w0 (msgall (ascii "type@=loginres/")
        ++ msgall (ascii "type@=chatmsg/nn@=Alice/txt@=hello/cid@=1/"))
      = ⟨[Effect.call (msghead (ascii "type@=loginres/") ++ ascii "type@=loginres")],
          Exit.panicked⟩ := by
  decide

/-! ## The return value of `respondtoserver` -/

/-- The loop over the segments never ends with a returned error. -/
theorem handleAll_exit (w : World) (segs : List (List Nat)) :
    (handleAll w segs).exit = Exit.returned none ∨ (handleAll w segs).exit = Exit.panicked
      ∨ (handleAll w segs).exit = Exit.fatal := by
  induction segs with
  | nil => exact Or.inl rfl
  | cons seg segs ih =>
    simp only [handleAll]
    cases hx : (responsHandle w seg).exit with
    | returned e => simpa using ih
    | panicked => simp
    | fatal => simp

/-- The function `respondtoserver` returns `ErrDataTruncated` exactly on the buffers without
a terminator, and then nothing is dispatched, sent or printed. -/
theorem respondtoserver_truncated_iff (w : World) (fres : List Nat) :
    ((respondtoserver w fres).exit = Exit.returned (some GoError.ErrDataTruncated)
        ↔ Contains fres termindbytes = false) ∧
      (Contains fres termindbytes = false → (respondtoserver w fres).trace = []) := by
  unfold respondtoserver
  cases hc : Contains fres termindbytes with
  | false => simp
  | true =>
    simp only [Bool.not_true, Bool.false_eq_true, if_false]
    rcases handleAll_exit w (SplitN fres termindbytes 100).dropLast with h | h | h <;>
      simp [h]

/-- When `responsHandle` returns on every segment, the loop invokes it on all
of them, in order, and ends normally. -/
theorem handleAll_calls_of_returns (w : World) (segs : List (List Nat))
    (h : ∀ seg ∈ segs, ∃ e, (responsHandle w seg).exit = Exit.returned e) :
    calls (handleAll w segs).trace = segs ∧ (handleAll w segs).exit = Exit.returned none := by
  induction segs with
  | nil => exact ⟨rfl, rfl⟩
  | cons seg segs ih =>
    obtain ⟨e, he⟩ := h seg (by simp)
    have ih2 := ih (fun x hx => h x (List.mem_cons_of_mem _ hx))
    simp only [handleAll, he]
    simp [calls, calls_append, calls_responsHandle, ih2.1, ih2.2]

/-- At most `k + 1` pieces come out of `k` cuts, so `SplitN` with 100 yields at
most 100 pieces and the loop handles at most 99 of them. -/
theorem genSplit_length_le (sep : List Nat) (k : Nat) (s : List Nat) :
    (genSplit sep k s).length ≤ k + 1 := by
  induction k generalizing s with
  | zero => simp [genSplit]
  | succ k ih =>
    simp only [genSplit]
    split
    · simp
    · simpa using ih _

/-- C4 on the buffer holding the one frame `type@=loginres/live_stat@=0/`: the
buffer holds a terminator, `respondtoserver` does not return `nil`; the call
`responsHandle` panics, because the split removed the slash that closes the
last field. -/
theorem terminated_buffer_panics :
    Contains (msgall (ascii "type@=loginres/live_stat@=0/")) termindbytes = true ∧
    respondtoserver w0 (msgall (ascii "type@=loginres/live_stat@=0/"))
      = ⟨[Effect.call (msghead (ascii "type@=loginres/live_stat@=0/")
            ++ ascii "type@=loginres/live_stat@=0")], Exit.panicked⟩ ∧
    (respondtoserver w0 (msgall (ascii "type@=loginres/live_stat@=0/"))).exit
      ≠ Exit.returned none := by
  decide

/-! ## Segments dispatched from one buffer -/

/-- C10 on a buffer of two frames, `type@=uenter/rid@=97376/uid@=11880384/nn@=uux/level@=22/`
and `type@=chatmsg/nn@=Alice/txt@=hello/cid@=1/`: the buffer holds two
terminators and splits into two segments and an empty rest, but `responsHandle`
is invoked on the first segment only, because that call panics (the split took
away the slash that closes `level@=22`); the chat line is never printed. -/
theorem second_segment_not_dispatched :
    SplitN (msgall (ascii "type@=uenter/rid@=97376/uid@=11880384/nn@=uux/level@=22/")
        ++ msgall (ascii "type@=chatmsg/nn@=Alice/txt@=hello/cid@=1/")) termindbytes 100
      = [msghead (ascii "type@=uenter/rid@=97376/uid@=11880384/nn@=uux/level@=22/")
            ++ ascii "type@=uenter/rid@=97376/uid@=11880384/nn@=uux/level@=22",
         msghead (ascii "type@=chatmsg/nn@=Alice/txt@=hello/cid@=1/")
            ++ ascii "type@=chatmsg/nn@=Alice/txt@=hello/cid@=1", []] ∧
    respondtoserver w0
        (msgall (ascii "type@=uenter/rid@=97376/uid@=11880384/nn@=uux/level@=22/")
          ++ msgall (ascii "type@=chatmsg/nn@=Alice/txt@=hello/cid@=1/"))
      = ⟨[Effect.call
            (msghead (ascii "type@=uenter/rid@=97376/uid@=11880384/nn@=uux/level@=22/")
              ++ ascii "type@=uenter/rid@=97376/uid@=11880384/nn@=uux/level@=22")],
          Exit.panicked⟩ := by
  decide

/-! ## Frames cut by socket reads -/

/-- C3 on two frames, `type@=chatmsg/nn@=Alice/txt@=hello/cid@=1/` and
`type@=chatmsg/nn@=Bob/txt@=hi/cid@=2/`. Read in one piece, both payloads are
dispatched and both chat lines are printed. Read in two pieces, the cut 30
bytes into the second frame, the second payload handed to `responsHandle` is
only the tail of the second frame, and the line of Bob is never printed. -/
theorem cut_frame_is_lost :
    calls (readresponse w0
        [msgall (ascii "type@=chatmsg/nn@=Alice/txt@=hello/cid@=1/")
          ++ msgall (ascii "type@=chatmsg/nn@=Bob/txt@=hi/cid@=2/")] GoError.EOF).trace
      = [msghead (ascii "type@=chatmsg/nn@=Alice/txt@=hello/cid@=1/")
            ++ ascii "type@=chatmsg/nn@=Alice/txt@=hello/cid@=1",
         msghead (ascii "type@=chatmsg/nn@=Bob/txt@=hi/cid@=2/")
            ++ ascii "type@=chatmsg/nn@=Bob/txt@=hi/cid@=2"] ∧
    prints (readresponse w0
        [msgall (ascii "type@=chatmsg/nn@=Alice/txt@=hello/cid@=1/")
          ++ msgall (ascii "type@=chatmsg/nn@=Bob/txt@=hi/cid@=2/")] GoError.EOF).trace
      = [ascii "Alice: hello" ++ [10], ascii "Bob: hi" ++ [10]] ∧
    calls (readresponse w0
        [msgall (ascii "type@=chatmsg/nn@=Alice/txt@=hello/cid@=1/")
          ++ (msgall (ascii "type@=chatmsg/nn@=Bob/txt@=hi/cid@=2/")).take 30,
         (msgall (ascii "type@=chatmsg/nn@=Bob/txt@=hi/cid@=2/")).drop 30] GoError.EOF).trace
      = [msghead (ascii "type@=chatmsg/nn@=Alice/txt@=hello/cid@=1/")
            ++ ascii "type@=chatmsg/nn@=Alice/txt@=hello/cid@=1",
         ascii "Bob/txt@=hi/cid@=2"] ∧
    prints (readresponse w0
        [msgall (ascii "type@=chatmsg/nn@=Alice/txt@=hello/cid@=1/")
          ++ (msgall (ascii "type@=chatmsg/nn@=Bob/txt@=hi/cid@=2/")).take 30,
         (msgall (ascii "type@=chatmsg/nn@=Bob/txt@=hi/cid@=2/")).drop 30] GoError.EOF).trace
      = [ascii "Alice: hello" ++ [10]] := by
  decide

end Dybarrage
